import Mathlib

/-!
Shallow embedding of the round-generator core of FocusForge
(`focus-forge.py`): the layout solver `generate_positions` (source lines
146-170) and the round generator `make_items` (source lines 172-250),
together with proofs of the specification claims about them.

Modelling conventions.
The pseudorandom source `random.Random` is modelled as a stream of rational
draws in `[0, 1)` (field `f`), consumed left to right through a cursor `k`;
each primitive (`random`, `randint`, `randrange`, `uniform`, `choice`)
consumes exactly one draw, with its standard uniform semantics expressed
through that draw.  Python float arithmetic is modelled by exact rational
arithmetic, and Python's `int(...)` on a float by truncation toward zero.
-/

/-- A pseudorandom source: an infinite stream of draws `f` and a cursor `k`.
Every operation reads `f k` and advances the cursor by one. -/
structure RNG where
  f : ℕ → ℚ
  k : ℕ

/-- The current draw (the value `rng.random()` would return). -/
def RNG.val (r : RNG) : ℚ := r.f r.k

/-- Advance the cursor past one consumed draw. -/
def RNG.step (r : RNG) : RNG := ⟨r.f, r.k + 1⟩

/-- Draws of a Python `random.Random` always lie in `[0, 1)`. -/
def ValidSrc (f : ℕ → ℚ) : Prop := ∀ i, 0 ≤ f i ∧ f i < 1

/-- Python `int(...)` applied to a (here: rational) number: truncation
toward zero. -/
def pyInt (q : ℚ) : ℤ := if 0 ≤ q then ⌊q⌋ else ⌈q⌉

/-- The float constant `math.tau` (only ever multiplied onto a draw to form
an `Item.angle`; no claim depends on its value). -/
def tauQ : ℚ := 6.283185307179586

/-- `rng.randint(lo, hi)`: uniform integer in `[lo, hi]`, both ends
included. -/
def RNG.randint (r : RNG) (lo hi : ℤ) : ℤ :=
  lo + ⌊r.val * ((hi - lo + 1 : ℤ) : ℚ)⌋

/-- `rng.randrange(n)`: uniform integer in `[0, n)`. -/
def RNG.randrange (r : RNG) (n : ℕ) : ℕ := (⌊r.val * (n : ℚ)⌋).toNat

/-- `rng.uniform(a, b)`: uniform real in `[a, b]`. -/
def RNG.uniform (r : RNG) (a b : ℚ) : ℚ := a + r.val * (b - a)

/-- `rng.choice(l)`: uniform element of the (nonempty) list `l`. -/
def RNG.choice {α : Type} [Inhabited α] (r : RNG) (l : List α) : α :=
  l.getD (⌊r.val * (l.length : ℚ)⌋).toNat default

/-- Source line 27: `SHAPES = ["circle", "square", "triangle"]`. -/
def SHAPES : List String := ["circle", "square", "triangle"]

/-- Source line 28: the seven color names of the palette. -/
def COLOR_NAMES : List String :=
  ["blue", "orange", "sky", "green", "yellow", "red", "purple"]

/-- Source lines 120-128: the `Item` dataclass (fields in source order). -/
structure Item where
  x : ℤ
  y : ℤ
  size : ℤ
  shape : String
  color_name : String
  is_target : Bool
  angle : ℚ
deriving DecidableEq, Inhabited

/-- The `rule` dict returned by `make_items`: keys `mode` and `desc`. -/
structure Rule where
  mode : String
  desc : String
deriving DecidableEq, Inhabited

/-- Source line 173: `set_size = min(8 + level*2, 60)`. -/
def set_size (level : ℕ) : ℕ := min (8 + level * 2) 60

/-- Source line 174: `size = max(12, 26 - level//2)`. -/
def itemSize (level : ℕ) : ℤ := max 12 (26 - ((level / 2 : ℕ) : ℤ))

/-- Source line 175: `heterogeneity = min(1.0, 0.3 + level*0.05)`. -/
def heterogeneity (level : ℕ) : ℚ := min 1 (0.3 + (level : ℚ) * 0.05)

/-- Source line 176: `rotation = min(1.0, 0.2 + level*0.03)`. -/
def rotationP (level : ℕ) : ℚ := min 1 (0.2 + (level : ℚ) * 0.03)

/-- Source line 177: `crowding = min(1.0, level*0.06)`. -/
def crowding (level : ℕ) : ℚ := min 1 ((level : ℚ) * 0.06)

/-- Source lines 154-157: a candidate `(x, y)` is accepted only if its
squared distance to the previously accepted point `p` is not below
`(pad*2.5)**2`. -/
def farEnough (pad : ℤ) (x y : ℤ) (p : ℤ × ℤ) : Bool :=
  decide (¬((((p.1 - x) ^ 2 + (p.2 - y) ^ 2 : ℤ) : ℚ) < ((pad : ℚ) * 2.5) ^ 2))

/-- Source lines 149-159: the rejection-sampling loop of
`generate_positions`.  The loop runs while `len(positions) < n` and
`attempts < n*200`; `fuel` is the number of attempts still allowed.
`WIDTH = 960`, `HEIGHT = 720`, `MARGIN = 60` are inlined as in the source
expressions `MARGIN+pad`, `WIDTH-MARGIN-pad`, `MARGIN+pad+40`,
`HEIGHT-MARGIN-pad`. -/
def placeLoop (n : ℕ) (pad : ℤ) : ℕ → List (ℤ × ℤ) → RNG → List (ℤ × ℤ) × RNG
  | 0, acc, rng => (acc, rng)
  | fuel + 1, acc, rng =>
    if acc.length < n then
      let x := rng.randint (60 + pad) (960 - 60 - pad)
      let rng1 := rng.step
      let y := rng1.randint (60 + pad + 40) (720 - 60 - pad)
      let rng2 := rng1.step
      placeLoop n pad fuel (if acc.all (farEnough pad x y) then acc ++ [(x, y)] else acc) rng2
    else (acc, rng)

/-- Source lines 160-169: the deterministic grid fallback.
`cols = int(math.sqrt(n))` is the floor square root; `rows =
math.ceil(n / cols)` is the ceiling of the exact quotient, rendered as
`(n + cols - 1) / cols` over `ℕ`.  The two nested `for` loops append
row-major and break once `n` points have been appended, which is the
row-major enumeration truncated to `n` elements. -/
def gridPositions (n : ℕ) : List (ℤ × ℤ) :=
  let cols := Nat.sqrt n
  let rows := (n + cols - 1) / cols
  let gx : ℚ := (960 - 2 * 60) / ((cols : ℚ) + 1)
  let gy : ℚ := (720 - 2 * 60 - 80) / ((rows : ℚ) + 1)
  (((List.range rows).flatMap fun r => (List.range cols).map fun (c : ℕ) =>
      (pyInt (60 + ((c : ℚ) + 1) * gx), pyInt (60 + 80 + ((r : ℚ) + 1) * gy))).take n)

/-- Source lines 146-170: `generate_positions(n, pad, rng)`.  Returns the
positions together with the advanced pseudorandom source (the Python
function mutates the shared `rng` in place). -/
def generate_positions (n : ℕ) (pad : ℤ) (rng : RNG) : List (ℤ × ℤ) × RNG :=
  let res := placeLoop n pad (n * 200) [] rng
  if res.1.length < n then (gridPositions n, res.2) else res

/-- Source lines 183-184 and 190-191: `while distract == target:
distract = rng.choice(l)`.  The loop body runs at least once because the
distractor value is initialised to the target value; `fuel` bounds the
number of redraws, and on exhaustion the (never terminating) loop is
modelled as returning `avoid` itself, so theorems about the redraw carry
the hypothesis that a different value was found. -/
def drawNe (avoid : String) (l : List String) : ℕ → RNG → String × RNG
  | 0, rng => (avoid, rng)
  | fuel + 1, rng =>
    let s := rng.choice l
    let rng1 := rng.step
    if s = avoid then drawNe avoid l fuel rng1 else (s, rng1)

/-- The four round parameters chosen by the `classic` branch. -/
structure ClassicSetup where
  ts : String
  tc : String
  ds : String
  dc : String
deriving DecidableEq, Inhabited

/-- Source lines 179-191: the `classic` branch.  With probability `0.5` the
rule is shape-based (redraw the distractor shape until it differs, then the
colors coincide), otherwise color-based (shapes coincide, redraw the
distractor color until it differs). -/
def classicSetup (fuel : ℕ) (rng : RNG) : ClassicSetup × RNG :=
  let ts := rng.choice SHAPES
  let rngA := rng.step
  let q := rngA.val
  let rngB := rngA.step
  if q < 0.5 then
    let dsr := drawNe ts SHAPES fuel rngB
    let tc := dsr.2.choice COLOR_NAMES
    (⟨ts, tc, dsr.1, tc⟩, dsr.2.step)
  else
    let tc := rngB.choice COLOR_NAMES
    let rngC := rngB.step
    let dcr := drawNe tc COLOR_NAMES fuel rngC
    (⟨ts, tc, ts, dcr.1⟩, dcr.2)

/-- The round parameters chosen by the `conjunction` branch. -/
structure ConjSetup where
  ts : String
  tc : String
  d1c : String
  d2s : String
deriving DecidableEq, Inhabited

/-- Source lines 192-197: the `conjunction` branch.  Archetype 1 is
`(target_shape, d1_color)` with `d1_color ≠ target_color`; archetype 2 is
`(d2_shape, target_color)` with `d2_shape ≠ target_shape`. -/
def conjSetup (rng : RNG) : ConjSetup × RNG :=
  let ts := rng.choice SHAPES
  let rngA := rng.step
  let tc := rngA.choice COLOR_NAMES
  let rngB := rngA.step
  let d1c := rngB.choice (COLOR_NAMES.filter fun c => c ≠ tc)
  let rngC := rngB.step
  let d2s := rngC.choice (SHAPES.filter fun s => s ≠ ts)
  (⟨ts, tc, d1c, d2s⟩, rngC.step)

/-- Source lines 212, 226 and 238: `angle = rng.random()*math.tau if
rng.random() < rotation else 0.0`.  The condition draw is consumed first;
the angle draw is consumed only when the condition holds. -/
def rollAngle (level : ℕ) (rng : RNG) : ℚ × RNG :=
  let c := rng.val
  let rng1 := rng.step
  if c < rotationP level then (rng1.val * tauQ, rng1.step) else (0, rng1)

/-- Source lines 210-227: the item-population loop over the generated
positions (`i` is the running index, `ti` the chosen target index).  For
the target: rotation roll, then size `size` unless `mode == "mixed"`, in
which case `int(size*1.4)`.  For a non-target: archetype assignment
(uniform pair choice in `conjunction` mode, the fixed
`(distract_shape, distract_color)` otherwise), then with probability
`heterogeneity*0.35` a mutation of either the shape or the color (50/50)
to a uniformly random value, then a rotation roll. -/
def itemLoop (mode : String) (level : ℕ) (ts tc ds dc : String)
    (pairs : List (String × String)) (ti : ℕ) :
    List (ℤ × ℤ) → ℕ → RNG → List Item × RNG
  | [], _, rng => ([], rng)
  | p :: rest, i, rng =>
    if i = ti then
      let ar := rollAngle level rng
      let tsize : ℤ :=
        if mode ≠ "mixed" then itemSize level
        else pyInt ((itemSize level : ℚ) * 1.4)
      let r := itemLoop mode level ts tc ds dc pairs ti rest (i + 1) ar.2
      (⟨p.1, p.2, tsize, ts, tc, true, ar.1⟩ :: r.1, r.2)
    else
      let sc0 : (String × String) × RNG :=
        if mode = "conjunction" then (rng.choice pairs, rng.step)
        else ((ds, dc), rng)
      let m := sc0.2.val
      let rngM := sc0.2.step
      let sc1 : (String × String) × RNG :=
        if m < heterogeneity level * 0.35 then
          let b := rngM.val
          let rngB := rngM.step
          if b < 0.5 then ((rngB.choice SHAPES, sc0.1.2), rngB.step)
          else ((sc0.1.1, rngB.choice COLOR_NAMES), rngB.step)
        else (sc0.1, rngM)
      let ar := rollAngle level sc1.2
      let r := itemLoop mode level ts tc ds dc pairs ti rest (i + 1) ar.2
      (⟨p.1, p.2, itemSize level, sc1.1.1, sc1.1.2, false, ar.1⟩ :: r.1, r.2)

/-- Source lines 234-235: an offset landing strictly inside the
`1.2*size` radius gets `int(size*1.5)` added to its vertical component. -/
def crowdShift (s : ℤ) (dx dy : ℤ) : ℤ :=
  if ((dx ^ 2 + dy ^ 2 : ℤ) : ℚ) < ((s : ℚ) * 1.2) ^ 2 then dy + pyInt ((s : ℚ) * 1.5)
  else dy

/-- Source line 230: `crowd_n = int(2 + crowding*4)`. -/
def crowdN (level : ℕ) : ℕ := (pyInt (2 + crowding level * 4)).toNat

/-- Source lines 231-239: the crowd-injection loop.  Each of the `k`
iterations draws an offset `(dx, dy)` uniformly from the square of
half-width `size*2.5` around the target position `(tx, ty)`, applies
`crowdShift`, then draws an independent shape, color and rotation, and
appends the extra non-target item of size `max(8, size-2)`. -/
def crowdLoop (level : ℕ) (tx ty : ℤ) : ℕ → List Item → RNG → List Item × RNG
  | 0, items, rng => (items, rng)
  | k + 1, items, rng =>
    let s : ℤ := itemSize level
    let dx := pyInt (rng.uniform (-((s : ℚ) * 2.5)) ((s : ℚ) * 2.5))
    let rngA := rng.step
    let dy0 := pyInt (rngA.uniform (-((s : ℚ) * 2.5)) ((s : ℚ) * 2.5))
    let rngB := rngA.step
    let dy := crowdShift s dx dy0
    let shape := rngB.choice SHAPES
    let rngC := rngB.step
    let color := rngC.choice COLOR_NAMES
    let rngD := rngC.step
    let ar := rollAngle level rngD
    crowdLoop level tx ty k
      (items ++ [⟨tx + dx, ty + dy, max 8 (s - 2), shape, color, false, ar.1⟩]) ar.2

/-- Source lines 228-239: crowd injection runs when `crowding > 0` and at
least 5 items exist, clustering `crowdN` extra items around the target
position `items[target_index]`. -/
def crowdInject (level : ℕ) (ti : ℕ) (items : List Item) (rng : RNG) :
    List Item × RNG :=
  if 0 < crowding level ∧ 5 ≤ items.length then
    let t := items.getD ti default
    crowdLoop level t.x t.y (crowdN level) items rng
  else (items, rng)

/-- Source lines 240-249: the rule description returned with the items. -/
def mkRule (mode ts tc ds : String) : Rule :=
  if mode = "classic" then
    if ds ≠ ts then ⟨mode, "Find the only " ++ ts ++ " among " ++ ds ++ "s"⟩
    else ⟨mode, "Find the only " ++ tc ++ " item"⟩
  else if mode = "conjunction" then
    ⟨mode, "Find the only " ++ tc ++ " " ++ ts ++ " (others share its color or shape)"⟩
  else ⟨mode, "Find the unique oddball (size/feature)"⟩

/-- Source lines 208-250 after the branch-specific setup: draw the target
index, populate the items, inject the crowd, and build the rule. -/
def assemble (mode : String) (level : ℕ) (ts tc ds dc : String)
    (pairs : List (String × String)) (positions : List (ℤ × ℤ)) (rng : RNG) :
    List Item × Rule × RNG :=
  let ti := rng.randrange (set_size level)
  let rngA := rng.step
  let r1 := itemLoop mode level ts tc ds dc pairs ti positions 0 rngA
  let r2 := crowdInject level ti r1.1 r1.2
  (r2.1, mkRule mode ts tc ds, r2.2)

/-- A full `classic` round: `make_items("classic", level, rng)`.  The
positions are generated first (source line 178), then the classic branch
runs.  In the classic branch `distract_pairs` is never defined, hence the
empty list. -/
def make_round_classic (level : ℕ) (fuel : ℕ) (rng : RNG) :
    List Item × Rule × RNG :=
  let pr := generate_positions (set_size level) (itemSize level + 6) rng
  let sr := classicSetup fuel pr.2
  assemble "classic" level sr.1.ts sr.1.tc sr.1.ds sr.1.dc [] pr.1 sr.2

/-- A full `conjunction` round: `make_items("conjunction", level, rng)`.
In the conjunction branch `distract_shape`/`distract_color` are never
defined (the item loop only reads `distract_pairs`), hence the `""`
placeholders. -/
def make_round_conj (level : ℕ) (rng : RNG) : List Item × Rule × RNG :=
  let pr := generate_positions (set_size level) (itemSize level + 6) rng
  let sr := conjSetup pr.2
  assemble "conjunction" level sr.1.ts sr.1.tc "" ""
    [(sr.1.ts, sr.1.d1c), (sr.1.d2s, sr.1.tc)] pr.1 sr.2

/-- Source lines 203-207 with the fall-through population: the oddball
branch of `mixed` mode.  Target and distractor share shape and color; the
`mode` string stays the caller's (`"mixed"`), which is what triggers the
`int(size*1.4)` target size in the item loop. -/
def oddballAfter (mode : String) (level : ℕ) (positions : List (ℤ × ℤ))
    (rng : RNG) : List Item × Rule × RNG :=
  let ts := rng.choice SHAPES
  let rngA := rng.step
  let tc := rngA.choice COLOR_NAMES
  let rngB := rngA.step
  assemble mode level ts tc ts tc [] positions rngB

/-- Source lines 172-250: `make_items(mode, level, rng)`.  For a mode
other than `"classic"`/`"conjunction"`, the positions generated at line
178 are first consumed, then the probabilistic dispatch at lines 199-202
re-enters `make_items` with the simpler mode (regenerating positions with
the advanced source), and only the final 5-percent arm keeps the already
generated positions for the oddball round.  `fuel` bounds the redraw
loops of the classic branch. -/
def make_items (mode : String) (level : ℕ) (rng : RNG) (fuel : ℕ) :
    List Item × Rule × RNG :=
  if mode = "classic" then make_round_classic level fuel rng
  else if mode = "conjunction" then make_round_conj level rng
  else
    let pr := generate_positions (set_size level) (itemSize level + 6) rng
    let q1 := pr.2.val
    let rng1 := pr.2.step
    if q1 < 0.65 then make_round_classic level fuel rng1
    else
      let q2 := rng1.val
      let rng2 := rng1.step
      if q2 < 0.95 then make_round_conj level rng2
      else oddballAfter mode level pr.1 rng2

/-- The branch selector of the `mixed`-mode dispatch (source lines
199-203) as a function of the two potentially consumed draws: `0` is the
delegation to `classic`, `1` the delegation to `conjunction`, `2` the
oddball arm.  When the first draw is below `0.65` the second draw is
never consumed, and this function correspondingly ignores it. -/
def mixedBranch (q1 q2 : ℚ) : ℕ :=
  if q1 < 0.65 then 0 else if q2 < 0.95 then 1 else 2

/-- Number of pairs `(i, j)` in the uniform `N × N` grid of draw pairs
`(i/N, j/N)` on which the `mixed` dispatch takes branch `b`: the
discretised measure of branch `b` is `branchCount N b / N^2`. -/
def branchCount (N : ℕ) (b : ℕ) : ℕ :=
  ((Finset.range N ×ˢ Finset.range N).filter fun p =>
    mixedBranch ((p.1 : ℚ) / (N : ℚ)) ((p.2 : ℚ) / (N : ℚ)) = b).card

/-- Whether a `mixed`-mode call with this source takes the oddball arm:
the draw consumed right after position generation is at least `0.65`, and
the next one at least `0.95`. -/
def mixedIsOddball (level : ℕ) (rng : RNG) : Bool :=
  let rng1 := (generate_positions (set_size level) (itemSize level + 6) rng).2
  decide (¬(rng1.val < 0.65)) && decide (¬(rng1.step.val < 0.95))

/-- The source whose draws are all `0` (a legal draw stream: every draw
lies in `[0, 1)`); under it every placement attempt produces the same
point, so the rejection sampler accepts exactly one point. -/
def zeroSrc : RNG := ⟨fun _ => 0, 0⟩

/-- A finite list of draws extended by the legal draw `1/2`. -/
def srcOfList (L : List ℚ) : RNG := ⟨fun i => L.getD i 0.5, 0⟩

/-- Twenty draws under which `generate_positions 10 32` accepts ten points
in ten attempts: two rows `y ∈ {132, 332}` of five points
`x ∈ {92, 252, 412, 572, 732}`, pairwise at least `160` apart (the
acceptance threshold is `2.5 * 32 = 80`). -/
def posDraws : List ℚ :=
  [0, 0, 160/777, 0, 320/777, 0, 480/777, 0, 640/777, 0,
   0, 200/497, 160/777, 200/497, 320/777, 200/497, 480/777, 200/497,
   640/777, 200/497]

/-- Draw stream for a `conjunction` round at level 1 in which the first
non-target item (index 1) is assigned archetype 2 `("square", "blue")` and
then heterogeneity-mutates its shape back to `"circle"`, reproducing the
target's exact `("circle", "blue")` pair. -/
def srcC4 : RNG := srcOfList (posDraws ++ [0, 0, 0, 0, 0, 1/2, 1/2, 0, 0, 0])

/-- Draw stream for a `classic` (color-rule) round at level 1 in which the
first non-target item heterogeneity-mutates its shape to `"square"`,
ending up sharing neither the target's shape nor its color. -/
def srcC5 : RNG := srcOfList (posDraws ++ [0, 1/2, 0, 1/7, 0, 1/2, 0, 0, 1/3, 1/2])

/-- Draw stream for a `classic` round at level 1 in which the first crowd
item draws offset `(0, -30)`, is pushed to `(0, 9)` by the vertical shift,
and therefore still lies within `1.2 * size` of the target's center. -/
def srcC6 : RNG :=
  srcOfList (posDraws ++ [0, 1/2, 0, 1/7, 0, 1/2] ++
    List.replicate 18 (1/2 : ℚ) ++ [1/2, 7/26])

/-- Refinement comparison only: the grid layout exactly as the
specification words it, with `ceil(sqrt(n))` columns instead of the
source's `int(math.sqrt(n))`; compared against `gridPositions` (the
embedding of the source) to settle the column-count claim. -/
def gridPositionsSpecCeil (n : ℕ) : List (ℤ × ℤ) :=
  let cols := if Nat.sqrt n * Nat.sqrt n = n then Nat.sqrt n else Nat.sqrt n + 1
  let rows := (n + cols - 1) / cols
  let gx : ℚ := (960 - 2 * 60) / ((cols : ℚ) + 1)
  let gy : ℚ := (720 - 2 * 60 - 80) / ((rows : ℚ) + 1)
  (((List.range rows).flatMap fun r => (List.range cols).map fun (c : ℕ) =>
      (pyInt (60 + ((c : ℚ) + 1) * gx), pyInt (60 + 80 + ((r : ℚ) + 1) * gy))).take n)

/-- The sampling rectangle of the rejection loop: inset by the margin plus
`pad` on all sides, with the extra `40`-pixel top inset (source lines
151-152). -/
def inPadRegion (pad : ℤ) (p : ℤ × ℤ) : Prop :=
  60 + pad ≤ p.1 ∧ p.1 ≤ 960 - 60 - pad ∧ 60 + pad + 40 ≤ p.2 ∧ p.2 ≤ 720 - 60 - pad

/-- The weaker region that also contains every grid-fallback point: inset
by the margin alone, with a `40`-pixel top inset. -/
def inMarginRegion (p : ℤ × ℤ) : Prop :=
  60 ≤ p.1 ∧ p.1 ≤ 900 ∧ 100 ≤ p.2 ∧ p.2 ≤ 660

/-- Draw stream for a `mixed` round at level 1 whose dispatch draws are
`0.7` (not below `0.65`) and `0.96` (not below `0.95`), forcing the oddball
arm; the target ends up with size `int(26 * 1.4) = 36`. -/
def srcC9 : RNG := srcOfList (posDraws ++ [7/10, 24/25, 0, 0, 0, 1/2])

/-- Draw stream for the classic color-rule setup alone: shape `"circle"`,
branch draw `1/2` (color rule), target color `"blue"`, distractor color
redrawn once to `"orange"`. -/
def srcC5w : RNG := srcOfList [0, 1/2, 0, 1/7]

unseal Rat.mul Rat.add Rat.sub Rat.inv Rat.ofScientific Nat.sqrt.iter

set_option maxRecDepth 100000

theorem validSrc_zero : ValidSrc zeroSrc.f := by
  intro i
  show (0 : ℚ) ≤ 0 ∧ (0 : ℚ) < 1
  norm_num

theorem validSrc_ofList (L : List ℚ) (hL : ∀ x ∈ L, 0 ≤ x ∧ x < 1) :
    ValidSrc (srcOfList L).f := by
  intro i
  show 0 ≤ L.getD i 0.5 ∧ L.getD i 0.5 < 1
  rcases lt_or_le i L.length with h | h
  · rw [List.getD_eq_getElem L 0.5 h]
    exact hL _ (List.getElem_mem h)
  · rw [List.getD_eq_default L 0.5 h]
    norm_num

theorem floor_frac_bounds (q : ℚ) (m : ℤ) (h0 : 0 ≤ q) (h1 : q < 1) (hm : 0 < m) :
    0 ≤ ⌊q * (m : ℚ)⌋ ∧ ⌊q * (m : ℚ)⌋ < m := by
  have hm' : (0 : ℚ) < (m : ℚ) := by exact_mod_cast hm
  refine ⟨Int.floor_nonneg.mpr (mul_nonneg h0 hm'.le), ?_⟩
  apply Int.floor_lt.mpr
  calc q * (m : ℚ) < 1 * (m : ℚ) := mul_lt_mul_of_pos_right h1 hm'
  _ = (m : ℚ) := one_mul _

theorem floor_frac_bounds_nat (q : ℚ) (m : ℕ) (h0 : 0 ≤ q) (h1 : q < 1) (hm : 0 < m) :
    0 ≤ ⌊q * (m : ℚ)⌋ ∧ ⌊q * (m : ℚ)⌋ < (m : ℤ) := by
  have hm' : (0 : ℚ) < (m : ℚ) := by exact_mod_cast hm
  refine ⟨Int.floor_nonneg.mpr (mul_nonneg h0 hm'.le), ?_⟩
  apply Int.floor_lt.mpr
  push_cast
  calc q * (m : ℚ) < 1 * (m : ℚ) := mul_lt_mul_of_pos_right h1 hm'
  _ = (m : ℚ) := one_mul _

theorem RNG.randrange_lt (r : RNG) (n : ℕ) (hv : ValidSrc r.f) (hn : 0 < n) :
    r.randrange n < n := by
  obtain ⟨h0, h1⟩ := hv r.k
  have hb := floor_frac_bounds_nat (r.f r.k) n h0 h1 hn
  unfold RNG.randrange RNG.val
  omega

theorem RNG.randint_bounds (r : RNG) (lo hi : ℤ) (h : lo ≤ hi)
    (h0 : 0 ≤ r.val) (h1 : r.val < 1) :
    lo ≤ r.randint lo hi ∧ r.randint lo hi ≤ hi := by
  have hb := floor_frac_bounds r.val (hi - lo + 1) h0 h1 (by omega)
  unfold RNG.randint
  omega

theorem RNG.choice_mem {α : Type} [Inhabited α] (r : RNG) (l : List α)
    (h0 : 0 ≤ r.val) (h1 : r.val < 1) (hl : l ≠ []) : r.choice l ∈ l := by
  have hlen : 0 < l.length := List.length_pos.mpr hl
  have hb := floor_frac_bounds_nat r.val l.length h0 h1 hlen
  have hidx : (⌊r.val * (l.length : ℚ)⌋).toNat < l.length := by omega
  unfold RNG.choice
  rw [List.getD_eq_getElem l default hidx]
  exact List.getElem_mem hidx

theorem pyInt_eq_floor (q : ℚ) (h : 0 ≤ q) : pyInt q = ⌊q⌋ := if_pos h

theorem placeLoop_length_le (n : ℕ) (pad : ℤ) (fuel : ℕ) :
    ∀ (acc : List (ℤ × ℤ)) (rng : RNG), acc.length ≤ n →
      (placeLoop n pad fuel acc rng).1.length ≤ n := by
  induction fuel with
  | zero => intro acc rng h; exact h
  | succ fuel ih =>
    intro acc rng h
    unfold placeLoop
    split
    · dsimp only
      apply ih
      split
      · next hlt _ =>
        simp only [List.length_append, List.length_singleton]
        omega
      · exact h
    · exact h

theorem placeLoop_f (n : ℕ) (pad : ℤ) (fuel : ℕ) :
    ∀ (acc : List (ℤ × ℤ)) (rng : RNG),
      ((placeLoop n pad fuel acc rng).2).f = rng.f := by
  induction fuel with
  | zero => intro acc rng; rfl
  | succ fuel ih =>
    intro acc rng
    unfold placeLoop
    split
    · dsimp only
      exact ih _ _
    · rfl

theorem placeLoop_mem (n : ℕ) (pad : ℤ)
    (hpx : 60 + pad ≤ 960 - 60 - pad) (hpy : 60 + pad + 40 ≤ 720 - 60 - pad)
    (fuel : ℕ) :
    ∀ (acc : List (ℤ × ℤ)) (rng : RNG), ValidSrc rng.f →
      (∀ p ∈ acc, inPadRegion pad p) →
      ∀ p ∈ (placeLoop n pad fuel acc rng).1, inPadRegion pad p := by
  induction fuel with
  | zero => intro acc rng _ hacc; exact hacc
  | succ fuel ih =>
    intro acc rng hv hacc
    unfold placeLoop
    split
    · dsimp only
      refine ih _ rng.step.step hv ?_
      split
      · intro p hp
        rcases List.mem_append.mp hp with hp | hp
        · exact hacc p hp
        · have hx := RNG.randint_bounds rng (60 + pad) (960 - 60 - pad) hpx
            (hv rng.k).1 (hv rng.k).2
          have hy := RNG.randint_bounds rng.step (60 + pad + 40) (720 - 60 - pad) hpy
            (hv (rng.k + 1)).1 (hv (rng.k + 1)).2
          have hp' : p = (rng.randint (60 + pad) (960 - 60 - pad),
              rng.step.randint (60 + pad + 40) (720 - 60 - pad)) := by
            simpa using hp
          subst hp'
          exact ⟨hx.1, hx.2, hy.1, hy.2⟩
      · exact hacc
    · exact hacc

theorem range_flatMap_map_eq {α : Type} (g : ℕ → ℕ → α) (c : ℕ) (hc : 0 < c) :
    ∀ m, ((List.range m).flatMap fun r => (List.range c).map fun j => g r j)
      = (List.range (m * c)).map fun k => g (k / c) (k % c) := by
  intro m
  induction m with
  | zero => simp
  | succ m ih =>
    rw [List.range_succ, List.flatMap_append, ih, Nat.succ_mul, List.range_add,
      List.map_append, List.map_map]
    simp only [List.flatMap_cons, List.flatMap_nil, List.append_nil]
    congr 1
    apply List.map_congr_left
    intro j hj
    have hjc : j < c := List.mem_range.mp hj
    simp only [Function.comp_apply]
    have hdiv : (m * c + j) / c = m + j / c := by
      rw [Nat.add_comm, Nat.mul_comm, Nat.add_mul_div_left _ _ hc, Nat.add_comm]
    have hmod : (m * c + j) % c = j % c := by
      rw [Nat.add_comm, Nat.mul_comm, Nat.add_mul_mod_self_left]
    rw [hdiv, hmod, Nat.div_eq_of_lt hjc, Nat.mod_eq_of_lt hjc, Nat.add_zero]

theorem rows_mul_cols_ge (n : ℕ) (hn : 0 < n) :
    n ≤ (n + Nat.sqrt n - 1) / Nat.sqrt n * Nat.sqrt n := by
  have hc : 0 < Nat.sqrt n := Nat.sqrt_pos.mpr hn
  have h := Nat.div_add_mod (n + Nat.sqrt n - 1) (Nat.sqrt n)
  have h2 : (n + Nat.sqrt n - 1) % Nat.sqrt n < Nat.sqrt n :=
    Nat.mod_lt _ hc
  rw [Nat.mul_comm]
  omega

theorem gridPositions_length (n : ℕ) (hn : 0 < n) : (gridPositions n).length = n := by
  unfold gridPositions
  dsimp only
  rw [range_flatMap_map_eq _ _ (Nat.sqrt_pos.mpr hn), List.length_take,
    List.length_map, List.length_range]
  exact min_eq_left (rows_mul_cols_ge n hn)

theorem gridPositions_getD (n k : ℕ) (hn : 0 < n) (hk : k < n) :
    (gridPositions n).getD k (0, 0) =
      (pyInt (60 + (((k % Nat.sqrt n : ℕ) : ℚ) + 1) *
          ((960 - 2 * 60) / ((Nat.sqrt n : ℚ) + 1))),
       pyInt (60 + 80 + (((k / Nat.sqrt n : ℕ) : ℚ) + 1) *
          ((720 - 2 * 60 - 80) / ((((n + Nat.sqrt n - 1) / Nat.sqrt n : ℕ) : ℚ) + 1)))) := by
  have hc : 0 < Nat.sqrt n := Nat.sqrt_pos.mpr hn
  have hk2 : k < (n + Nat.sqrt n - 1) / Nat.sqrt n * Nat.sqrt n :=
    lt_of_lt_of_le hk (rows_mul_cols_ge n hn)
  unfold gridPositions
  dsimp only
  rw [range_flatMap_map_eq _ _ hc, List.getD_eq_getElem?_getD, List.getElem?_take,
    if_pos hk, List.getElem?_map, List.getElem?_range hk2]
  rfl

theorem grid_coord_bounds (i d : ℕ) (w : ℚ) (hw : 0 < w) (hid : i < d) :
    0 ≤ ((i : ℚ) + 1) * (w / ((d : ℚ) + 1)) ∧
      ((i : ℚ) + 1) * (w / ((d : ℚ) + 1)) < w := by
  have hd : (0 : ℚ) < (d : ℚ) + 1 := by positivity
  constructor
  · positivity
  · have h1 : ((i : ℚ) + 1) < (d : ℚ) + 1 := by
      have : (i : ℚ) < (d : ℚ) := by exact_mod_cast hid
      linarith
    calc ((i : ℚ) + 1) * (w / ((d : ℚ) + 1))
        < ((d : ℚ) + 1) * (w / ((d : ℚ) + 1)) := by
          apply mul_lt_mul_of_pos_right h1
          positivity
      _ = w := by field_simp

theorem pyInt_bounds_of (q : ℚ) (lo hi : ℤ) (h0 : 0 ≤ q) (hlo : (lo : ℚ) ≤ q)
    (hhi : q < (hi : ℚ)) : lo ≤ pyInt q ∧ pyInt q < hi := by
  rw [pyInt_eq_floor q h0]
  exact ⟨Int.le_floor.mpr hlo, Int.floor_lt.mpr hhi⟩

theorem gridPositions_mem (n : ℕ) (hn : 0 < n) :
    ∀ p ∈ gridPositions n, inMarginRegion p := by
  intro p hp
  have hc : 0 < Nat.sqrt n := Nat.sqrt_pos.mpr hn
  unfold gridPositions at hp
  dsimp only at hp
  have hp' := List.take_subset _ _ hp
  rw [List.mem_flatMap] at hp'
  obtain ⟨r, hr, hp''⟩ := hp'
  rw [List.mem_map] at hp''
  obtain ⟨c, hcm, rfl⟩ := hp''
  have hr' : r < (n + Nat.sqrt n - 1) / Nat.sqrt n := List.mem_range.mp hr
  have hc' : c < Nat.sqrt n := List.mem_range.mp hcm
  obtain ⟨hx0, hx1⟩ := grid_coord_bounds c (Nat.sqrt n) (960 - 2 * 60) (by norm_num) hc'
  obtain ⟨hy0, hy1⟩ := grid_coord_bounds r ((n + Nat.sqrt n - 1) / Nat.sqrt n)
    (720 - 2 * 60 - 80) (by norm_num) hr'
  have hbx := pyInt_bounds_of
    (60 + ((c : ℚ) + 1) * ((960 - 2 * 60) / ((Nat.sqrt n : ℚ) + 1))) 60 901
    (by linarith) (by push_cast; linarith) (by push_cast; linarith)
  have hby := pyInt_bounds_of
    (60 + 80 + ((r : ℚ) + 1) *
      ((720 - 2 * 60 - 80) / ((((n + Nat.sqrt n - 1) / Nat.sqrt n : ℕ) : ℚ) + 1)))
    100 661 (by linarith) (by push_cast; linarith) (by push_cast; linarith)
  exact ⟨hbx.1, by have := hbx.2; omega, hby.1, by have := hby.2; omega⟩

theorem generate_positions_length (n : ℕ) (pad : ℤ) (rng : RNG) (hn : 0 < n) :
    (generate_positions n pad rng).1.length = n := by
  unfold generate_positions
  dsimp only
  split
  · exact gridPositions_length n hn
  · next h =>
    have hle := placeLoop_length_le n pad (n * 200) [] rng (by simp)
    omega

theorem generate_positions_f (n : ℕ) (pad : ℤ) (rng : RNG) :
    ((generate_positions n pad rng).2).f = rng.f := by
  unfold generate_positions
  dsimp only
  split
  · exact placeLoop_f n pad (n * 200) [] rng
  · exact placeLoop_f n pad (n * 200) [] rng

theorem itemLoop_length (mode : String) (level : ℕ) (ts tc ds dc : String)
    (pairs : List (String × String)) (ti : ℕ) :
    ∀ (ps : List (ℤ × ℤ)) (i : ℕ) (rng : RNG),
      (itemLoop mode level ts tc ds dc pairs ti ps i rng).1.length = ps.length := by
  intro ps
  induction ps with
  | nil => intro i rng; rfl
  | cons p rest ih =>
    intro i rng
    unfold itemLoop
    split
    · dsimp only
      simp only [List.length_cons, ih]
    · dsimp only
      simp only [List.length_cons, ih]

theorem itemLoop_target_count (mode : String) (level : ℕ) (ts tc ds dc : String)
    (pairs : List (String × String)) (ti : ℕ) :
    ∀ (ps : List (ℤ × ℤ)) (i : ℕ) (rng : RNG),
      ((itemLoop mode level ts tc ds dc pairs ti ps i rng).1.filter
          fun it => it.is_target).length
        = if i ≤ ti ∧ ti < i + ps.length then 1 else 0 := by
  intro ps
  induction ps with
  | nil =>
    intro i rng
    simp only [itemLoop, List.filter_nil, List.length_nil]
    split_ifs with h
    · simp only [List.length_nil] at h
      omega
    · rfl
  | cons p rest ih =>
    intro i rng
    unfold itemLoop
    split
    · next heq =>
      dsimp only
      simp only [List.filter_cons]
      rw [if_pos trivial, List.length_cons, ih, List.length_cons]
      subst heq
      split_ifs <;> omega
    · next hne =>
      dsimp only
      simp only [List.filter_cons]
      rw [if_neg (by simp), ih, List.length_cons]
      split_ifs <;> omega

theorem itemLoop_target_size (mode : String) (level : ℕ) (ts tc ds dc : String)
    (pairs : List (String × String)) (ti : ℕ) :
    ∀ (ps : List (ℤ × ℤ)) (i : ℕ) (rng : RNG),
      ∀ it ∈ (itemLoop mode level ts tc ds dc pairs ti ps i rng).1,
        it.is_target = true →
        it.size = if mode ≠ "mixed" then itemSize level
          else pyInt ((itemSize level : ℚ) * 1.4) := by
  intro ps
  induction ps with
  | nil => intro i rng it hit; simp [itemLoop] at hit
  | cons p rest ih =>
    intro i rng it hit htgt
    rw [itemLoop] at hit
    split at hit
    · dsimp only at hit
      rcases List.mem_cons.mp hit with rfl | hmem
      · rfl
      · exact ih (i + 1) _ it hmem htgt
    · dsimp only at hit
      rcases List.mem_cons.mp hit with rfl | hmem
      · simp at htgt
      · exact ih (i + 1) _ it hmem htgt

theorem crowdLoop_length (level : ℕ) (tx ty : ℤ) (k : ℕ) :
    ∀ (items : List Item) (rng : RNG),
      (crowdLoop level tx ty k items rng).1.length = items.length + k := by
  induction k with
  | zero => intro items rng; rfl
  | succ k ih =>
    intro items rng
    unfold crowdLoop
    dsimp only
    rw [ih]
    simp only [List.length_append, List.length_singleton]
    omega

theorem crowdLoop_filter_count (level : ℕ) (tx ty : ℤ) (k : ℕ) :
    ∀ (items : List Item) (rng : RNG),
      ((crowdLoop level tx ty k items rng).1.filter fun it => it.is_target).length
        = (items.filter fun it => it.is_target).length := by
  induction k with
  | zero => intro items rng; rfl
  | succ k ih =>
    intro items rng
    unfold crowdLoop
    dsimp only
    rw [ih]
    simp

theorem crowdLoop_target_prop (level : ℕ) (tx ty : ℤ) (P : Item → Prop) (k : ℕ) :
    ∀ (items : List Item) (rng : RNG),
      (∀ it ∈ items, it.is_target = true → P it) →
      ∀ it ∈ (crowdLoop level tx ty k items rng).1, it.is_target = true → P it := by
  induction k with
  | zero => intro items rng h; exact h
  | succ k ih =>
    intro items rng h
    unfold crowdLoop
    dsimp only
    apply ih
    intro it hit htgt
    rcases List.mem_append.mp hit with hmem | hmem
    · exact h it hmem htgt
    · rcases List.mem_singleton.mp hmem with rfl
      simp at htgt

theorem crowdLoop_drop_false (level : ℕ) (tx ty : ℤ) (m : ℕ) (k : ℕ) :
    ∀ (items : List Item) (rng : RNG), m ≤ items.length →
      (∀ it ∈ items.drop m, it.is_target = false) →
      ∀ it ∈ (crowdLoop level tx ty k items rng).1.drop m, it.is_target = false := by
  induction k with
  | zero => intro items rng _ h; exact h
  | succ k ih =>
    intro items rng hm h
    unfold crowdLoop
    dsimp only
    apply ih
    · simp only [List.length_append, List.length_singleton]
      omega
    · intro it hit
      rw [List.drop_append_of_le_length hm] at hit
      rcases List.mem_append.mp hit with hmem | hmem
      · exact h it hmem
      · rcases List.mem_singleton.mp hmem with rfl
        rfl

theorem drawNe_f (avoid : String) (l : List String) (fuel : ℕ) :
    ∀ (rng : RNG), ((drawNe avoid l fuel rng).2).f = rng.f := by
  induction fuel with
  | zero => intro rng; rfl
  | succ fuel ih =>
    intro rng
    unfold drawNe
    dsimp only
    split
    · exact ih _
    · rfl

theorem classicSetup_f (fuel : ℕ) (rng : RNG) :
    ((classicSetup fuel rng).2).f = rng.f := by
  unfold classicSetup
  dsimp only
  split
  · exact drawNe_f _ _ fuel _
  · exact drawNe_f _ _ fuel _

theorem conjSetup_f (rng : RNG) : ((conjSetup rng).2).f = rng.f := rfl

theorem crowding_pos (level : ℕ) (hl : 1 ≤ level) : 0 < crowding level := by
  unfold crowding
  rw [lt_min_iff]
  refine ⟨one_pos, ?_⟩
  have h1 : (1 : ℚ) ≤ (level : ℚ) := by exact_mod_cast hl
  calc (0 : ℚ) < 1 * 0.06 := by norm_num
    _ ≤ (level : ℚ) * 0.06 := by
        apply mul_le_mul_of_nonneg_right h1
        norm_num

theorem set_size_ge (level : ℕ) (hl : 1 ≤ level) : 10 ≤ set_size level := by
  unfold set_size
  omega

theorem crowdN_bounds (level : ℕ) (hl : 1 ≤ level) :
    2 ≤ crowdN level ∧ crowdN level ≤ 6 := by
  have h0 := crowding_pos level hl
  have h1 : crowding level ≤ 1 := min_le_left _ _
  have harg0 : (0 : ℚ) ≤ 2 + crowding level * 4 := by linarith
  unfold crowdN
  rw [pyInt_eq_floor _ harg0]
  have hlo : (2 : ℤ) ≤ ⌊(2 + crowding level * 4 : ℚ)⌋ :=
    Int.le_floor.mpr (by push_cast; linarith)
  have hhi : ⌊(2 + crowding level * 4 : ℚ)⌋ ≤ 6 := by
    calc ⌊(2 + crowding level * 4 : ℚ)⌋ ≤ ⌊(6 : ℚ)⌋ :=
          Int.floor_le_floor (by linarith)
      _ = 6 := by norm_num
  omega

theorem assemble_length (mode : String) (level : ℕ) (ts tc ds dc : String)
    (pairs : List (String × String)) (positions : List (ℤ × ℤ)) (rng : RNG)
    (hpos : positions.length = set_size level) (hl : 1 ≤ level) :
    (assemble mode level ts tc ds dc pairs positions rng).1.length
      = set_size level + crowdN level := by
  unfold assemble
  dsimp only
  unfold crowdInject
  have hlen := itemLoop_length mode level ts tc ds dc pairs
    (rng.randrange (set_size level)) positions 0 rng.step
  rw [if_pos]
  · rw [crowdLoop_length, hlen, hpos]
  · refine ⟨crowding_pos level hl, ?_⟩
    rw [hlen, hpos]
    have := set_size_ge level hl
    omega

theorem assemble_target_count (mode : String) (level : ℕ) (ts tc ds dc : String)
    (pairs : List (String × String)) (positions : List (ℤ × ℤ)) (rng : RNG)
    (hpos : positions.length = set_size level)
    (hti : rng.randrange (set_size level) < set_size level) :
    ((assemble mode level ts tc ds dc pairs positions rng).1.filter
        fun it => it.is_target).length = 1 := by
  unfold assemble
  dsimp only
  unfold crowdInject
  split
  · rw [crowdLoop_filter_count, itemLoop_target_count, if_pos]
    refine ⟨Nat.zero_le _, ?_⟩
    rw [hpos]
    omega
  · rw [itemLoop_target_count, if_pos]
    refine ⟨Nat.zero_le _, ?_⟩
    rw [hpos]
    omega

theorem assemble_target_size (mode : String) (level : ℕ) (ts tc ds dc : String)
    (pairs : List (String × String)) (positions : List (ℤ × ℤ)) (rng : RNG) :
    ∀ it ∈ (assemble mode level ts tc ds dc pairs positions rng).1,
      it.is_target = true →
      it.size = if mode ≠ "mixed" then itemSize level
        else pyInt ((itemSize level : ℚ) * 1.4) := by
  unfold assemble
  dsimp only
  unfold crowdInject
  split
  · apply crowdLoop_target_prop
    intro it hit htgt
    exact itemLoop_target_size mode level ts tc ds dc pairs _ positions 0 _ it hit htgt
  · intro it hit htgt
    exact itemLoop_target_size mode level ts tc ds dc pairs _ positions 0 _ it hit htgt

theorem assemble_drop_false (mode : String) (level : ℕ) (ts tc ds dc : String)
    (pairs : List (String × String)) (positions : List (ℤ × ℤ)) (rng : RNG)
    (hpos : positions.length = set_size level) :
    ∀ it ∈ (assemble mode level ts tc ds dc pairs positions rng).1.drop
        (set_size level), it.is_target = false := by
  unfold assemble
  dsimp only
  unfold crowdInject
  have hnil : (itemLoop mode level ts tc ds dc pairs
      (rng.randrange (set_size level)) positions 0 rng.step).1.drop (set_size level)
      = [] := by
    apply List.drop_eq_nil_of_le
    rw [itemLoop_length, hpos]
  split
  · apply crowdLoop_drop_false
    · rw [itemLoop_length, hpos]
    · rw [hnil]
      intro it hit
      simp at hit
  · rw [hnil]
    intro it hit
    simp at hit

theorem make_round_classic_props (level : ℕ) (fuel : ℕ) (rng : RNG)
    (hl : 1 ≤ level) (hv : ValidSrc rng.f) :
    (((make_round_classic level fuel rng).1.filter fun it => it.is_target).length = 1) ∧
    ((make_round_classic level fuel rng).1.length = set_size level + crowdN level) ∧
    (∀ it ∈ (make_round_classic level fuel rng).1, it.is_target = true →
      it.size = itemSize level) ∧
    (∀ it ∈ (make_round_classic level fuel rng).1.drop (set_size level),
      it.is_target = false) := by
  have hss : 0 < set_size level := by unfold set_size; omega
  unfold make_round_classic
  dsimp only
  have hpos := generate_positions_length (set_size level) (itemSize level + 6) rng hss
  have hvf : ValidSrc ((classicSetup fuel
      (generate_positions (set_size level) (itemSize level + 6) rng).2).2).f := by
    rw [classicSetup_f, generate_positions_f]
    exact hv
  have hti := RNG.randrange_lt _ (set_size level) hvf hss
  refine ⟨assemble_target_count _ _ _ _ _ _ _ _ _ hpos hti,
    assemble_length _ _ _ _ _ _ _ _ _ hpos hl, ?_,
    assemble_drop_false _ _ _ _ _ _ _ _ _ hpos⟩
  intro it hit htgt
  have hs := assemble_target_size "classic" level _ _ _ _ _ _ _ it hit htgt
  rw [if_pos (by decide)] at hs
  exact hs

theorem make_round_conj_props (level : ℕ) (rng : RNG)
    (hl : 1 ≤ level) (hv : ValidSrc rng.f) :
    (((make_round_conj level rng).1.filter fun it => it.is_target).length = 1) ∧
    ((make_round_conj level rng).1.length = set_size level + crowdN level) ∧
    (∀ it ∈ (make_round_conj level rng).1, it.is_target = true →
      it.size = itemSize level) ∧
    (∀ it ∈ (make_round_conj level rng).1.drop (set_size level),
      it.is_target = false) := by
  have hss : 0 < set_size level := by unfold set_size; omega
  unfold make_round_conj
  dsimp only
  have hpos := generate_positions_length (set_size level) (itemSize level + 6) rng hss
  have hvf : ValidSrc ((conjSetup
      (generate_positions (set_size level) (itemSize level + 6) rng).2).2).f := by
    rw [conjSetup_f, generate_positions_f]
    exact hv
  have hti := RNG.randrange_lt _ (set_size level) hvf hss
  refine ⟨assemble_target_count _ _ _ _ _ _ _ _ _ hpos hti,
    assemble_length _ _ _ _ _ _ _ _ _ hpos hl, ?_,
    assemble_drop_false _ _ _ _ _ _ _ _ _ hpos⟩
  intro it hit htgt
  have hs := assemble_target_size "conjunction" level _ _ _ _ _ _ _ it hit htgt
  rw [if_pos (by decide)] at hs
  exact hs

theorem oddballAfter_props (mode : String) (level : ℕ)
    (positions : List (ℤ × ℤ)) (rng : RNG) (hl : 1 ≤ level)
    (hv : ValidSrc rng.f) (hpos : positions.length = set_size level) :
    (((oddballAfter mode level positions rng).1.filter
        fun it => it.is_target).length = 1) ∧
    ((oddballAfter mode level positions rng).1.length
        = set_size level + crowdN level) ∧
    (∀ it ∈ (oddballAfter mode level positions rng).1, it.is_target = true →
      it.size = if mode ≠ "mixed" then itemSize level
        else pyInt ((itemSize level : ℚ) * 1.4)) ∧
    (∀ it ∈ (oddballAfter mode level positions rng).1.drop (set_size level),
      it.is_target = false) := by
  have hss : 0 < set_size level := by unfold set_size; omega
  unfold oddballAfter
  dsimp only
  have hvf : ValidSrc (rng.step.step).f := hv
  have hti := RNG.randrange_lt _ (set_size level) hvf hss
  exact ⟨assemble_target_count _ _ _ _ _ _ _ _ _ hpos hti,
    assemble_length _ _ _ _ _ _ _ _ _ hpos hl,
    assemble_target_size _ _ _ _ _ _ _ _ _,
    assemble_drop_false _ _ _ _ _ _ _ _ _ hpos⟩

theorem make_items_props (mode : String) (level : ℕ) (rng : RNG) (fuel : ℕ)
    (hm : mode ∈ ["classic", "conjunction", "mixed"]) (hl : 1 ≤ level)
    (hv : ValidSrc rng.f) :
    (((make_items mode level rng fuel).1.filter fun it => it.is_target).length = 1) ∧
    ((make_items mode level rng fuel).1.length = set_size level + crowdN level) ∧
    (∀ it ∈ (make_items mode level rng fuel).1, it.is_target = true →
      it.size = if mode = "mixed" ∧ mixedIsOddball level rng = true
        then pyInt ((itemSize level : ℚ) * 1.4) else itemSize level) ∧
    (∀ it ∈ (make_items mode level rng fuel).1.drop (set_size level),
      it.is_target = false) := by
  have hss : 0 < set_size level := by unfold set_size; omega
  simp only [List.mem_cons, List.not_mem_nil, or_false] at hm
  rcases hm with rfl | rfl | rfl
  · unfold make_items
    rw [if_pos rfl]
    obtain ⟨h1, h2, h3, h4⟩ := make_round_classic_props level fuel rng hl hv
    refine ⟨h1, h2, ?_, h4⟩
    intro it hit htgt
    rw [if_neg (by intro h; exact absurd h.1 (by decide))]
    exact h3 it hit htgt
  · unfold make_items
    rw [if_neg (by decide), if_pos rfl]
    obtain ⟨h1, h2, h3, h4⟩ := make_round_conj_props level rng hl hv
    refine ⟨h1, h2, ?_, h4⟩
    intro it hit htgt
    rw [if_neg (by intro h; exact absurd h.1 (by decide))]
    exact h3 it hit htgt
  · unfold make_items
    rw [if_neg (by decide), if_neg (by decide)]
    dsimp only
    have hpf : ((generate_positions (set_size level) (itemSize level + 6) rng).2).f
        = rng.f := generate_positions_f _ _ _
    by_cases hq1 : ((generate_positions (set_size level) (itemSize level + 6) rng).2).val
        < 0.65
    · rw [if_pos hq1]
      have hv2 : ValidSrc (((generate_positions (set_size level)
          (itemSize level + 6) rng).2).step).f := by
        show ValidSrc ((generate_positions (set_size level)
          (itemSize level + 6) rng).2).f
        rw [hpf]
        exact hv
      obtain ⟨h1, h2, h3, h4⟩ := make_round_classic_props level fuel _ hl hv2
      refine ⟨h1, h2, ?_, h4⟩
      intro it hit htgt
      rw [if_neg]
      · exact h3 it hit htgt
      · intro h
        have hmo := h.2
        unfold mixedIsOddball at hmo
        simp [hq1] at hmo
    · rw [if_neg hq1]
      by_cases hq2 : (((generate_positions (set_size level)
          (itemSize level + 6) rng).2).step).val < 0.95
      · rw [if_pos hq2]
        have hv2 : ValidSrc ((((generate_positions (set_size level)
            (itemSize level + 6) rng).2).step).step).f := by
          show ValidSrc ((generate_positions (set_size level)
            (itemSize level + 6) rng).2).f
          rw [hpf]
          exact hv
        obtain ⟨h1, h2, h3, h4⟩ := make_round_conj_props level _ hl hv2
        refine ⟨h1, h2, ?_, h4⟩
        intro it hit htgt
        rw [if_neg]
        · exact h3 it hit htgt
        · intro h
          have hmo := h.2
          unfold mixedIsOddball at hmo
          simp [hq2] at hmo
      · rw [if_neg hq2]
        have hv2 : ValidSrc ((((generate_positions (set_size level)
            (itemSize level + 6) rng).2).step).step).f := by
          show ValidSrc ((generate_positions (set_size level)
            (itemSize level + 6) rng).2).f
          rw [hpf]
          exact hv
        have hpos := generate_positions_length (set_size level)
          (itemSize level + 6) rng hss
        obtain ⟨h1, h2, h3, h4⟩ := oddballAfter_props "mixed" level _ _ hl hv2 hpos
        refine ⟨h1, h2, ?_, h4⟩
        intro it hit htgt
        have hs := h3 it hit htgt
        rw [if_neg (by simp)] at hs
        rw [if_pos]
        · exact hs
        · refine ⟨rfl, ?_⟩
          unfold mixedIsOddball
          simp [hq1, hq2]

/-- C1: for every mode in {classic, conjunction, mixed} and every level at
least 1, over any legal draw stream, the item list returned by `make_items`
contains exactly one item with `is_target = true` (all base distractors and
all appended crowd items carry `is_target = false`). -/
theorem make_items_unique_target (mode : String) (level : ℕ) (rng : RNG)
    (fuel : ℕ) (hm : mode ∈ ["classic", "conjunction", "mixed"])
    (hl : 1 ≤ level) (hv : ValidSrc rng.f) :
    ((make_items mode level rng fuel).1.filter fun it => it.is_target).length = 1 :=
  (make_items_props mode level rng fuel hm hl hv).1

/-- Witness for C1: a concrete classic round at level 1 on the stream
`srcC5` has exactly one target among its twelve items. -/
theorem make_items_unique_target_witness :
    ("classic" ∈ ["classic", "conjunction", "mixed"]) ∧ (1 : ℕ) ≤ 1 ∧
    ValidSrc srcC5.f ∧
    ((make_items "classic" 1 srcC5 9).1.filter fun it => it.is_target).length = 1 :=
  ⟨by decide, le_refl 1, validSrc_ofList _ (by decide),
    make_items_unique_target "classic" 1 srcC5 9 (by decide) (le_refl 1)
      (validSrc_ofList _ (by decide))⟩

/-- C8: the derived item count `min(8 + 2*level, 60)` is non-decreasing in
the level and capped at 60, and the derived item size
`max(12, 26 - level//2)` is non-increasing and floored at 12. -/
theorem profile_monotone (l1 l2 : ℕ) (h1 : 1 ≤ l1) (h12 : l1 ≤ l2) :
    set_size l1 ≤ set_size l2 ∧ set_size l2 ≤ 60 ∧
    itemSize l2 ≤ itemSize l1 ∧ 12 ≤ itemSize l2 := by
  unfold set_size itemSize
  refine ⟨by omega, by omega, by omega, by omega⟩

/-- Witness for C8 at levels 1 and 5. -/
theorem profile_monotone_witness :
    (1 : ℕ) ≤ 1 ∧ (1 : ℕ) ≤ 5 ∧
    (set_size 1 ≤ set_size 5 ∧ set_size 5 ≤ 60 ∧
      itemSize 5 ≤ itemSize 1 ∧ 12 ≤ itemSize 5) :=
  ⟨le_refl 1, by norm_num, profile_monotone 1 5 (le_refl 1) (by norm_num)⟩

/-- C9: the target's size is `int(size*1.4)` exactly when the round is the
`mixed`-mode oddball arm (both dispatch draws fail their thresholds); in
every other round - classic, conjunction, and mixed rounds delegating to
either - the target has the profile's base size. -/
theorem target_size_oddball (mode : String) (level : ℕ) (rng : RNG)
    (fuel : ℕ) (hm : mode ∈ ["classic", "conjunction", "mixed"])
    (hl : 1 ≤ level) (hv : ValidSrc rng.f) :
    ∀ it ∈ (make_items mode level rng fuel).1, it.is_target = true →
      it.size = if mode = "mixed" ∧ mixedIsOddball level rng = true
        then pyInt ((itemSize level : ℚ) * 1.4) else itemSize level :=
  (make_items_props mode level rng fuel hm hl hv).2.2.1

/-- Witness for C9: a concrete mixed round on `srcC9` takes the oddball
arm, so its target is the 1.4x-scaled size. -/
theorem target_size_oddball_witness :
    ("mixed" ∈ ["classic", "conjunction", "mixed"]) ∧ (1 : ℕ) ≤ 1 ∧
    ValidSrc srcC9.f ∧
    (∀ it ∈ (make_items "mixed" 1 srcC9 9).1, it.is_target = true →
      it.size = if "mixed" = "mixed" ∧ mixedIsOddball 1 srcC9 = true
        then pyInt ((itemSize 1 : ℚ) * 1.4) else itemSize 1) :=
  ⟨by decide, le_refl 1, validSrc_ofList _ (by decide),
    target_size_oddball "mixed" 1 srcC9 9 (by decide) (le_refl 1)
      (validSrc_ofList _ (by decide))⟩

/-- C10: for every mode and level at least 1, the derived crowding value is
strictly positive and the base item count is at least 10, so crowd
injection runs on every generated round and the returned list has exactly
`set_size + int(2 + 4*crowding)` items. -/
theorem item_count_total (mode : String) (level : ℕ) (rng : RNG) (fuel : ℕ)
    (hm : mode ∈ ["classic", "conjunction", "mixed"]) (hl : 1 ≤ level)
    (hv : ValidSrc rng.f) :
    0 < crowding level ∧ 10 ≤ set_size level ∧
    (make_items mode level rng fuel).1.length = set_size level + crowdN level :=
  ⟨crowding_pos level hl, set_size_ge level hl,
    (make_items_props mode level rng fuel hm hl hv).2.1⟩

/-- Witness for C10: the concrete conjunction round on `srcC4` has
`10 + 2 = 12` items. -/
theorem item_count_total_witness :
    ("conjunction" ∈ ["classic", "conjunction", "mixed"]) ∧ (1 : ℕ) ≤ 1 ∧
    ValidSrc srcC4.f ∧
    (0 < crowding 1 ∧ 10 ≤ set_size 1 ∧
      (make_items "conjunction" 1 srcC4 9).1.length = set_size 1 + crowdN 1) :=
  ⟨by decide, le_refl 1, validSrc_ofList _ (by decide),
    item_count_total "conjunction" 1 srcC4 9 (by decide) (le_refl 1)
      (validSrc_ofList _ (by decide))⟩

/-- C6 counterexample: in the classic round on `srcC6` (level 1, size 26),
the first appended crowd item (index 10) draws offset `(0, -30)`, is inside
the `1.2*size` radius, gets pushed to `(0, 9)` - and its center still lies
within `1.2*size` of the target's exact center, refuting the claimed
non-overlap guarantee (the count part of the claim does hold: two items are
appended). -/
theorem crowd_overlap_cex :
    let items := (make_items "classic" 1 srcC6 9).1
    items.length = 12 ∧ set_size 1 = 10 ∧ crowdN 1 = 2 ∧
    (items.getD 0 default).is_target = true ∧
    (items.getD 10 default).is_target = false ∧
    ((((items.getD 10 default).x - (items.getD 0 default).x) ^ 2 +
        ((items.getD 10 default).y - (items.getD 0 default).y) ^ 2 : ℤ) : ℚ)
      < ((itemSize 1 : ℚ) * 1.2) ^ 2 := by
  decide

/-- C6 amended: crowd injection appends exactly `int(2 + 4*crowding)` extra
non-target items (between 2 and 6), and any offset landing strictly inside
the `1.2*size` radius has `int(1.5*size)` added to its vertical component -
but this push need not move the item's center outside that radius. -/
theorem crowd_injection_count (mode : String) (level : ℕ) (rng : RNG)
    (fuel : ℕ) (hm : mode ∈ ["classic", "conjunction", "mixed"])
    (hl : 1 ≤ level) (hv : ValidSrc rng.f) :
    (make_items mode level rng fuel).1.length = set_size level + crowdN level ∧
    2 ≤ crowdN level ∧ crowdN level ≤ 6 ∧
    (∀ it ∈ (make_items mode level rng fuel).1.drop (set_size level),
      it.is_target = false) ∧
    (∀ dx dy : ℤ, ((dx ^ 2 + dy ^ 2 : ℤ) : ℚ) < ((itemSize level : ℚ) * 1.2) ^ 2 →
      crowdShift (itemSize level) dx dy = dy + pyInt ((itemSize level : ℚ) * 1.5)) := by
  obtain ⟨-, h2, -, h4⟩ := make_items_props mode level rng fuel hm hl hv
  obtain ⟨hb1, hb2⟩ := crowdN_bounds level hl
  refine ⟨h2, hb1, hb2, h4, ?_⟩
  intro dx dy h
  unfold crowdShift
  rw [if_pos h]

/-- Witness for the amended C6 at the concrete classic round on `srcC5`. -/
theorem crowd_injection_count_witness :
    ("classic" ∈ ["classic", "conjunction", "mixed"]) ∧ (1 : ℕ) ≤ 1 ∧
    ValidSrc srcC5.f ∧
    ((make_items "classic" 1 srcC5 9).1.length = set_size 1 + crowdN 1 ∧
      2 ≤ crowdN 1 ∧ crowdN 1 ≤ 6 ∧
      (∀ it ∈ (make_items "classic" 1 srcC5 9).1.drop (set_size 1),
        it.is_target = false) ∧
      (∀ dx dy : ℤ, ((dx ^ 2 + dy ^ 2 : ℤ) : ℚ) < ((itemSize 1 : ℚ) * 1.2) ^ 2 →
        crowdShift (itemSize 1) dx dy = dy + pyInt ((itemSize 1 : ℚ) * 1.5))) :=
  ⟨by decide, le_refl 1, validSrc_ofList _ (by decide),
    crowd_injection_count "classic" 1 srcC5 9 (by decide) (le_refl 1)
      (validSrc_ofList _ (by decide))⟩

/-- C4 counterexample: in the conjunction round on `srcC4`, the non-crowd
distractor at index 1 is assigned archetype 2 `("square", "blue")` and then
heterogeneity-mutates its shape back to `"circle"`, so it carries both the
target's shape and the target's color - the last conjunct is the negation
of the claimed uniqueness over the archetype-populated (non-crowd) items. -/
theorem conjunction_target_pair_cex :
    let items := (make_items "conjunction" 1 srcC4 9).1
    (items.getD 0 default).is_target = true ∧
    (items.getD 1 default).is_target = false ∧
    (items.getD 1 default).shape = (items.getD 0 default).shape ∧
    (items.getD 1 default).color_name = (items.getD 0 default).color_name ∧
    items.length = 12 ∧ set_size 1 = 10 ∧
    ¬(∀ it ∈ items.take (set_size 1), it.is_target = false →
        ¬(it.shape = (items.getD 0 default).shape ∧
          it.color_name = (items.getD 0 default).color_name)) := by
  decide

/-- C4 amended: in conjunction mode neither distractor archetype carries
both the target's shape and the target's color - archetype 1 differs in
color, archetype 2 differs in shape - so any distractor item that is not
heterogeneity-mutated differs from the target's pair; a mutated item may
nonetheless reproduce the exact pair. -/
theorem conjunction_archetypes_ne_target (rng : RNG) (hv : ValidSrc rng.f) :
    (conjSetup rng).1.d1c ≠ (conjSetup rng).1.tc ∧
    (conjSetup rng).1.d2s ≠ (conjSetup rng).1.ts ∧
    ((conjSetup rng).1.ts, (conjSetup rng).1.d1c)
      ≠ ((conjSetup rng).1.ts, (conjSetup rng).1.tc) ∧
    ((conjSetup rng).1.d2s, (conjSetup rng).1.tc)
      ≠ ((conjSetup rng).1.ts, (conjSetup rng).1.tc) := by
  have hts : rng.choice SHAPES ∈ SHAPES :=
    RNG.choice_mem rng SHAPES (hv rng.k).1 (hv rng.k).2 (by decide)
  have htc : rng.step.choice COLOR_NAMES ∈ COLOR_NAMES :=
    RNG.choice_mem rng.step COLOR_NAMES (hv (rng.k + 1)).1 (hv (rng.k + 1)).2
      (by decide)
  have hfc : (COLOR_NAMES.filter fun c => c ≠ rng.step.choice COLOR_NAMES) ≠ [] := by
    have hall : ∀ c ∈ COLOR_NAMES, (COLOR_NAMES.filter fun x => x ≠ c) ≠ [] := by
      decide
    exact hall _ htc
  have hfs : (SHAPES.filter fun s => s ≠ rng.choice SHAPES) ≠ [] := by
    have hall : ∀ c ∈ SHAPES, (SHAPES.filter fun x => x ≠ c) ≠ [] := by decide
    exact hall _ hts
  have hd1 := RNG.choice_mem rng.step.step
    (COLOR_NAMES.filter fun c => c ≠ rng.step.choice COLOR_NAMES)
    (hv (rng.k + 1 + 1)).1 (hv (rng.k + 1 + 1)).2 hfc
  have hd2 := RNG.choice_mem rng.step.step.step
    (SHAPES.filter fun s => s ≠ rng.choice SHAPES)
    (hv (rng.k + 1 + 1 + 1)).1 (hv (rng.k + 1 + 1 + 1)).2 hfs
  have hd1ne : rng.step.step.choice
      (COLOR_NAMES.filter fun c => c ≠ rng.step.choice COLOR_NAMES)
      ≠ rng.step.choice COLOR_NAMES := by
    have := (List.mem_filter.mp hd1).2
    simpa using this
  have hd2ne : rng.step.step.step.choice
      (SHAPES.filter fun s => s ≠ rng.choice SHAPES)
      ≠ rng.choice SHAPES := by
    have := (List.mem_filter.mp hd2).2
    simpa using this
  refine ⟨hd1ne, hd2ne, ?_, ?_⟩
  · intro h
    rw [Prod.mk.injEq] at h
    exact hd1ne h.2
  · intro h
    rw [Prod.mk.injEq] at h
    exact hd2ne h.1

/-- Witness for the amended C4 on the all-zero stream: target
`("circle", "blue")`, archetypes `("circle", "orange")` and
`("square", "blue")`. -/
theorem conjunction_archetypes_ne_target_witness :
    ValidSrc zeroSrc.f ∧
    ((conjSetup zeroSrc).1.d1c ≠ (conjSetup zeroSrc).1.tc ∧
      (conjSetup zeroSrc).1.d2s ≠ (conjSetup zeroSrc).1.ts ∧
      ((conjSetup zeroSrc).1.ts, (conjSetup zeroSrc).1.d1c)
        ≠ ((conjSetup zeroSrc).1.ts, (conjSetup zeroSrc).1.tc) ∧
      ((conjSetup zeroSrc).1.d2s, (conjSetup zeroSrc).1.tc)
        ≠ ((conjSetup zeroSrc).1.ts, (conjSetup zeroSrc).1.tc)) :=
  ⟨validSrc_zero, conjunction_archetypes_ne_target zeroSrc validSrc_zero⟩

/-- C5 counterexample: in the classic (color-rule) round on `srcC5`, the
non-crowd distractor at index 1 starts as the archetype
`("circle", "orange")` and heterogeneity-mutates its shape to `"square"`,
after which it shares neither the target's shape nor the target's color -
the last conjunct is the negation of the claimed single-feature property
over the non-crowd distractors. -/
theorem classic_single_feature_cex :
    let items := (make_items "classic" 1 srcC5 9).1
    (items.getD 0 default).is_target = true ∧
    (items.getD 1 default).is_target = false ∧
    (items.getD 1 default).shape ≠ (items.getD 0 default).shape ∧
    (items.getD 1 default).color_name ≠ (items.getD 0 default).color_name ∧
    items.length = 12 ∧ set_size 1 = 10 ∧
    ¬(∀ it ∈ items.take (set_size 1), it.is_target = false →
        (it.shape = (items.getD 0 default).shape ∨
          it.color_name = (items.getD 0 default).color_name)) := by
  decide

/-- C5 amended: the classic branch's archetype
`(distract_shape, distract_color)` differs from the target's
`(target_shape, target_color)` in exactly one coordinate, provided the
redraw loop produced a differing value (the hypothesis); unmutated
non-crowd distractors carry exactly this archetype, while
heterogeneity-mutated ones may differ in both coordinates or in none. -/
theorem classic_archetype_one_diff (fuel : ℕ) (rng : RNG)
    (h : ¬((classicSetup fuel rng).1.ds = (classicSetup fuel rng).1.ts ∧
          (classicSetup fuel rng).1.dc = (classicSetup fuel rng).1.tc)) :
    ((classicSetup fuel rng).1.ds ≠ (classicSetup fuel rng).1.ts ∧
      (classicSetup fuel rng).1.dc = (classicSetup fuel rng).1.tc) ∨
    ((classicSetup fuel rng).1.ds = (classicSetup fuel rng).1.ts ∧
      (classicSetup fuel rng).1.dc ≠ (classicSetup fuel rng).1.tc) := by
  unfold classicSetup at h ⊢
  dsimp only at h ⊢
  by_cases hq : rng.step.val < 0.5
  · rw [if_pos hq] at h ⊢
    dsimp only at h ⊢
    left
    exact ⟨fun heq => h ⟨heq, rfl⟩, rfl⟩
  · rw [if_neg hq] at h ⊢
    dsimp only at h ⊢
    right
    exact ⟨rfl, fun heq => h ⟨rfl, heq⟩⟩

/-- Witness for the amended C5 on a concrete color-rule setup:
`("circle", "blue")` target with archetype `("circle", "orange")`. -/
theorem classic_archetype_one_diff_witness :
    ¬((classicSetup 9 srcC5w).1.ds = (classicSetup 9 srcC5w).1.ts ∧
      (classicSetup 9 srcC5w).1.dc = (classicSetup 9 srcC5w).1.tc) ∧
    (((classicSetup 9 srcC5w).1.ds ≠ (classicSetup 9 srcC5w).1.ts ∧
      (classicSetup 9 srcC5w).1.dc = (classicSetup 9 srcC5w).1.tc) ∨
    ((classicSetup 9 srcC5w).1.ds = (classicSetup 9 srcC5w).1.ts ∧
      (classicSetup 9 srcC5w).1.dc ≠ (classicSetup 9 srcC5w).1.tc)) :=
  ⟨by decide, classic_archetype_one_diff 9 srcC5w (by decide)⟩

/-- C3 counterexample: with `n = 2` and `pad = 200` both `randint` ranges
are valid, but packing is infeasible under the all-zero stream (every
candidate repeats the first point, so one point is accepted and the grid
fallback runs); the second returned position `(480, 486)` violates the
pad-inset rectangle, whose lower edge is `720 - 60 - 200 = 460`: the grid
fallback ignores `pad` (and uses top inset 80, not 40). -/
theorem generate_positions_region_cex :
    (generate_positions 2 200 zeroSrc).1 = [(480, 313), (480, 486)] ∧
    ¬(∀ p ∈ (generate_positions 2 200 zeroSrc).1, inPadRegion 200 p) := by
  have heq : (generate_positions 2 200 zeroSrc).1 = [(480, 313), (480, 486)] := by
    decide
  refine ⟨heq, ?_⟩
  intro hall
  have h2 := hall (480, 486) (by rw [heq]; simp)
  unfold inPadRegion at h2
  dsimp only at h2
  omega

/-- C3 amended: for `n ≥ 1` and `0 ≤ pad ≤ 280` (so both `randint` calls
have valid ranges), `generate_positions` returns exactly `n` positions;
every returned position lies in the margin-inset region, and on the
random-acceptance path (no fallback) every position moreover lies in the
pad-inset sampling rectangle.  Grid-fallback positions need not respect the
pad inset. -/
theorem generate_positions_length_region (n : ℕ) (pad : ℤ) (rng : RNG)
    (hn : 1 ≤ n) (hp0 : 0 ≤ pad) (hp : pad ≤ 280) (hv : ValidSrc rng.f) :
    (generate_positions n pad rng).1.length = n ∧
    (∀ p ∈ (generate_positions n pad rng).1, inMarginRegion p) ∧
    (¬((placeLoop n pad (n * 200) [] rng).1.length < n) →
      ∀ p ∈ (generate_positions n pad rng).1, inPadRegion pad p) := by
  have hx : 60 + pad ≤ 960 - 60 - pad := by omega
  have hy : 60 + pad + 40 ≤ 720 - 60 - pad := by omega
  refine ⟨generate_positions_length n pad rng hn, ?_, ?_⟩
  · intro p hmem
    unfold generate_positions at hmem
    dsimp only at hmem
    split at hmem
    · exact gridPositions_mem n hn p hmem
    · have hreg := placeLoop_mem n pad hx hy (n * 200) [] rng hv
        (by intro q hq; simp at hq) p hmem
      unfold inPadRegion at hreg
      unfold inMarginRegion
      omega
  · intro hnf p hmem
    unfold generate_positions at hmem
    dsimp only at hmem
    split at hmem
    · next hlt => exact absurd hlt hnf
    · exact placeLoop_mem n pad hx hy (n * 200) [] rng hv
        (by intro q hq; simp at hq) p hmem

/-- Witness for the amended C3 at `n = 1`, `pad = 0` on the all-zero
stream (the first candidate `(60, 100)` is accepted immediately). -/
theorem generate_positions_length_region_witness :
    (1 : ℕ) ≤ 1 ∧ (0 : ℤ) ≤ 0 ∧ (0 : ℤ) ≤ 280 ∧ ValidSrc zeroSrc.f ∧
    ((generate_positions 1 0 zeroSrc).1.length = 1 ∧
      (∀ p ∈ (generate_positions 1 0 zeroSrc).1, inMarginRegion p) ∧
      (¬((placeLoop 1 0 (1 * 200) [] zeroSrc).1.length < 1) →
        ∀ p ∈ (generate_positions 1 0 zeroSrc).1, inPadRegion 0 p)) :=
  ⟨le_refl 1, le_refl 0, by norm_num, validSrc_zero,
    generate_positions_length_region 1 0 zeroSrc (le_refl 1) (le_refl 0)
      (by norm_num) validSrc_zero⟩

/-- C7 counterexample: at `n = 2` (any positive pad; here 1) the all-zero
stream forces the fallback, and the code's grid uses
`cols = int(math.sqrt(2)) = 1` (floor), producing the single-column layout
`[(480, 313), (480, 486)]`, not the `ceil(sqrt(2)) = 2`-column layout
`[(340, 400), (620, 400)]` that the claim describes. -/
theorem grid_fallback_cols_cex :
    (placeLoop 2 1 (2 * 200) [] zeroSrc).1.length < 2 ∧
    (generate_positions 2 1 zeroSrc).1 = [(480, 313), (480, 486)] ∧
    gridPositionsSpecCeil 2 = [(340, 400), (620, 400)] ∧
    (generate_positions 2 1 zeroSrc).1 ≠ gridPositionsSpecCeil 2 := by
  refine ⟨by decide, by decide, by decide, by decide⟩

/-- C7 amended: when fewer than `n` random points were accepted, the
returned layout is exactly `n` points on the row-major grid with
`int(math.sqrt(n))` columns - the floor square root, not the ceiling the
claim states - and `ceil(n / cols)` rows, evenly spaced across the
margin-inset region (top inset 80): point `k` sits at column `k % cols`
and row `k / cols` of that grid. -/
theorem grid_fallback_layout (n : ℕ) (pad : ℤ) (rng : RNG) (hn : 1 ≤ n)
    (hfb : (placeLoop n pad (n * 200) [] rng).1.length < n) :
    (generate_positions n pad rng).1.length = n ∧
    ∀ k, k < n → (generate_positions n pad rng).1.getD k (0, 0) =
      (pyInt (60 + (((k % Nat.sqrt n : ℕ) : ℚ) + 1) *
          ((960 - 2 * 60) / ((Nat.sqrt n : ℚ) + 1))),
       pyInt (60 + 80 + (((k / Nat.sqrt n : ℕ) : ℚ) + 1) *
          ((720 - 2 * 60 - 80) /
            ((((n + Nat.sqrt n - 1) / Nat.sqrt n : ℕ) : ℚ) + 1)))) := by
  have hgp : (generate_positions n pad rng).1 = gridPositions n := by
    unfold generate_positions
    dsimp only
    rw [if_pos hfb]
  rw [hgp]
  exact ⟨gridPositions_length n hn, fun k hk => gridPositions_getD n k hn hk⟩

/-- Witness for the amended C7 at `n = 2`, `pad = 1` on the all-zero
stream. -/
theorem grid_fallback_layout_witness :
    (1 : ℕ) ≤ 2 ∧ (placeLoop 2 1 (2 * 200) [] zeroSrc).1.length < 2 ∧
    ((generate_positions 2 1 zeroSrc).1.length = 2 ∧
      ∀ k, k < 2 → (generate_positions 2 1 zeroSrc).1.getD k (0, 0) =
        (pyInt (60 + (((k % Nat.sqrt 2 : ℕ) : ℚ) + 1) *
            ((960 - 2 * 60) / ((Nat.sqrt 2 : ℚ) + 1))),
         pyInt (60 + 80 + (((k / Nat.sqrt 2 : ℕ) : ℚ) + 1) *
            ((720 - 2 * 60 - 80) /
              ((((2 + Nat.sqrt 2 - 1) / Nat.sqrt 2 : ℕ) : ℚ) + 1))))) :=
  ⟨by norm_num, by decide, grid_fallback_layout 2 1 zeroSrc (by norm_num) (by decide)⟩

theorem make_items_mixed_branch_eq (level : ℕ) (rng : RNG) (fuel : ℕ) :
    make_items "mixed" level rng fuel =
      (let pr := generate_positions (set_size level) (itemSize level + 6) rng
       let b := mixedBranch pr.2.val pr.2.step.val
       if b = 0 then make_round_classic level fuel pr.2.step
       else if b = 1 then make_round_conj level pr.2.step.step
       else oddballAfter "mixed" level pr.1 pr.2.step.step) := by
  unfold make_items mixedBranch
  rw [if_neg (by decide), if_neg (by decide)]
  dsimp only
  by_cases h1 : (generate_positions (set_size level) (itemSize level + 6) rng).2.val
      < 0.65
  · simp [h1]
  · by_cases h2 : ((generate_positions (set_size level)
        (itemSize level + 6) rng).2).step.val < 0.95
    · simp [h1, h2]
    · simp [h1, h2]

/-- C2: the `mixed` dispatch draws a second, fresh random number for its
`elif` test, so the three branch measures over uniform draw pairs are
`0.65`, `0.35 * 0.95 = 0.3325` and `0.35 * 0.05 = 0.0175` - not the
claimed `0.65 / 0.30 / 0.05` that the cumulative-looking threshold `0.95`
was evidently written for.  At the failing draw pair `(0.70, 0.96)` the
dispatch takes the oddball arm although the claimed cumulative scheme
would select `conjunction`; on the uniform `20 x 20` grid of draw pairs
the branches are taken `260 / 133 / 7` times instead of the
`260 / 120 / 20` the claim requires. -/
theorem mixed_dispatch_measures :
    mixedBranch (70/100) (96/100) = 2 ∧
    branchCount 20 0 = 260 ∧ branchCount 20 1 = 133 ∧ branchCount 20 2 = 7 ∧
    ¬((133 : ℚ) / (20 * 20) = 30/100) ∧ ¬((7 : ℚ) / (20 * 20) = 5/100) ∧
    (133 : ℚ) / (20 * 20) = 1330/4000 ∧ (7 : ℚ) / (20 * 20) = 70/4000 := by
  refine ⟨by decide, by decide, by decide, by decide, by decide, by decide,
    by decide, by decide⟩
